import Mathlib

/-!
Verification of the crypto handle core (src/core/src/crypto/types.rs).

The development shallowly embeds the module's data model and operations:

* the ASN1 date parsing path (`X509::parse_asn1_date`), including a faithful
  model of the external chrono engine's strict parse of the fixed format
  `%b %d %H:%M:%S %Y` (month name, two-digit day/hour/minute/second, year,
  whole input consumed, calendar validity checked);
* the certificate handle `X509` over an abstract DER engine (the external
  OpenSSL collaborator, which the source treats as a correct black box):
  `from_byte_string`, `as_byte_string`, `thumbprint`, `is_time_valid`;
* SHA-1 (RFC 3174), the model of the engine digest used by `thumbprint`;
* the key-pair handle `PKey` verification paths over an abstract signing
  engine whose calls may fail (the source unwraps each engine `Result`);
* the symmetric key handle `AesKey` and its two role constructors;
* the constant `Debug` renderings of the three handles.

Bytes are modeled as natural numbers, Rust strings as lists of characters,
instants on the chronological timeline as integers.
-/

namespace Opcua

/-! ## Status codes (the three values `is_time_valid` can produce) -/

/-- The subset of the repository's StatusCode enum reachable from
`X509::is_time_valid`. -/
inductive StatusCode where
  | GOOD
  | BAD_CERTIFICATE_TIME_INVALID
  | BAD_CERTIFICATE_INVALID
deriving DecidableEq, Repr

/-! ## Calendar timestamps -/

/-- The calendar fields of a parsed UTC timestamp, the observable content of a
chrono DateTime produced by the date parser (month/day/hour/minute/second/year,
exactly the accessors the repository's own test inspects). -/
structure DateFields where
  year : Nat
  month : Nat
  day : Nat
  hour : Nat
  minute : Nat
  second : Nat
deriving DecidableEq, Repr

/-- Gregorian leap-year rule (chrono uses the proleptic Gregorian calendar). -/
def isLeapYear (y : Nat) : Bool :=
  y % 4 = 0 && (y % 100 != 0 || y % 400 = 0)

/-- Days in a month of the proleptic Gregorian calendar. -/
def daysInMonth (m y : Nat) : Nat :=
  match m with
  | 1 => 31 | 2 => if isLeapYear y then 29 else 28
  | 3 => 31 | 4 => 30 | 5 => 31 | 6 => 30 | 7 => 31
  | 8 => 31 | 9 => 30 | 10 => 31 | 11 => 30 | 12 => 31
  | _ => 0

/-- Calendar validity enforced by the chrono engine when assembling the parsed
fields into a DateTime: valid month, day in range for the month, time of day in
range. -/
def validDateTime (f : DateFields) : Bool :=
  1 ≤ f.month && f.month ≤ 12 &&
  1 ≤ f.day && f.day ≤ daysInMonth f.month f.year &&
  f.hour ≤ 23 && f.minute ≤ 59 && f.second ≤ 59

/-! ## Model of the chrono engine parse of `%b %d %H:%M:%S %Y` -/

/-- Three-letter English month abbreviation matched by the `%b` format item,
case-insensitively, yielding the month number. -/
def monthOfAbbrev (c1 c2 c3 : Char) : Option Nat :=
  let l := [c1.toLower, c2.toLower, c3.toLower]
  if l = ['j', 'a', 'n'] then some 1
  else if l = ['f', 'e', 'b'] then some 2
  else if l = ['m', 'a', 'r'] then some 3
  else if l = ['a', 'p', 'r'] then some 4
  else if l = ['m', 'a', 'y'] then some 5
  else if l = ['j', 'u', 'n'] then some 6
  else if l = ['j', 'u', 'l'] then some 7
  else if l = ['a', 'u', 'g'] then some 8
  else if l = ['s', 'e', 'p'] then some 9
  else if l = ['o', 'c', 't'] then some 10
  else if l = ['n', 'o', 'v'] then some 11
  else if l = ['d', 'e', 'c'] then some 12
  else none

/-- Consume the `%b` item: three characters forming a month abbreviation. -/
def parseMonthName : List Char → Option (Nat × List Char)
  | c1 :: c2 :: c3 :: rest => (monthOfAbbrev c1 c2 c3).map (fun m => (m, rest))
  | _ => none

/-- Consume up to `max` further decimal digits, accumulating into `acc`
(the tail of the engine's bounded number scanner). -/
def takeDigitsAux : Nat → List Char → Nat → Nat × List Char
  | 0, cs, acc => (acc, cs)
  | _ + 1, [], acc => (acc, [])
  | m + 1, c :: cs, acc =>
    if c.isDigit then takeDigitsAux m cs (acc * 10 + (c.toNat - 48))
    else (acc, c :: cs)

/-- The engine's bounded number scanner: at least one and at most `max`
decimal digits. -/
def scanNumber (max : Nat) : List Char → Option (Nat × List Char)
  | c :: cs =>
    if c.isDigit then some (takeDigitsAux (max - 1) cs (c.toNat - 48))
    else none
  | [] => none

/-- Consume one expected literal character. -/
def expectChar (c : Char) : List Char → Option (List Char)
  | x :: xs => if x = c then some xs else none
  | [] => none

/-- Consume the whole fixed format `%b %d %H:%M:%S %Y`, returning the raw
fields and the unconsumed remainder. -/
def parseFormat (cs : List Char) : Option (DateFields × List Char) := do
  let (m, cs) ← parseMonthName cs
  let cs ← expectChar ' ' cs
  let (d, cs) ← scanNumber 2 cs
  let cs ← expectChar ' ' cs
  let (h, cs) ← scanNumber 2 cs
  let cs ← expectChar ':' cs
  let (mi, cs) ← scanNumber 2 cs
  let cs ← expectChar ':' cs
  let (s, cs) ← scanNumber 2 cs
  let cs ← expectChar ' ' cs
  let (y, cs) ← scanNumber 6 cs
  pure (⟨y, m, d, h, mi, s⟩, cs)

/-- Model of the external chrono engine call
`UTC.datetime_from_str(date, "%b %d %H:%M:%S %Y")`: the whole input must be
consumed by the format and the fields must form a valid calendar timestamp. -/
def datetime_from_str (cs : List Char) : Option DateFields :=
  match parseFormat cs with
  | some (f, []) => if validDateTime f then some f else none
  | _ => none

/-! ## `X509::parse_asn1_date` -/

/-- The four characters of the zone suffix stripped by the source. -/
def gmtSuffix : List Char := [' ', 'G', 'M', 'T']

/-- Model of Rust's `str::ends_with(" GMT")` on a character list. -/
def ends_with_gmt (cs : List Char) : Bool :=
  cs.drop (cs.length - 4) = gmtSuffix

/-- `X509::parse_asn1_date`: strip a trailing " GMT" suffix if present, then
hand the text to the engine's strict format parse; any parse error collapses
to `Err(())`. -/
def X509.parse_asn1_date (date : List Char) : Except Unit DateFields :=
  let date := if ends_with_gmt date then date.take (date.length - 4) else date
  match datetime_from_str date with
  | some dt => .ok dt
  | none => .error ()

/-! ## Rendering well-formed date strings (the claim-side format description) -/

/-- The character for a single decimal digit. -/
def digitChar (d : Nat) : Char := Char.ofNat (48 + d)

/-- Two-digit zero-padded decimal rendering (day, hour, minute, second). -/
def renderNat2 (n : Nat) : List Char := [digitChar (n / 10), digitChar (n % 10)]

/-- Four-digit zero-padded decimal rendering (year). -/
def renderNat4 (n : Nat) : List Char :=
  [digitChar (n / 1000), digitChar (n / 100 % 10), digitChar (n / 10 % 10),
   digitChar (n % 10)]

/-- Title-case three-letter month abbreviation, as emitted by the engine. -/
def monthAbbrev (m : Nat) : List Char :=
  match m with
  | 1 => ['J', 'a', 'n'] | 2 => ['F', 'e', 'b'] | 3 => ['M', 'a', 'r']
  | 4 => ['A', 'p', 'r'] | 5 => ['M', 'a', 'y'] | 6 => ['J', 'u', 'n']
  | 7 => ['J', 'u', 'l'] | 8 => ['A', 'u', 'g'] | 9 => ['S', 'e', 'p']
  | 10 => ['O', 'c', 't'] | 11 => ['N', 'o', 'v'] | 12 => ['D', 'e', 'c']
  | _ => []

/-- The canonical text `MMM DD HH:MM:SS YYYY` for given fields. -/
def renderDate (f : DateFields) : List Char :=
  monthAbbrev f.month ++ ' ' :: renderNat2 f.day ++ ' ' :: renderNat2 f.hour ++
  ':' :: renderNat2 f.minute ++ ':' :: renderNat2 f.second ++
  ' ' :: renderNat4 f.year

/-- Fields that the canonical text can represent at all: a real month and
every numeric field within its rendered width. -/
def renderable (f : DateFields) : Prop :=
  1 ≤ f.month ∧ f.month ≤ 12 ∧ f.day < 100 ∧ f.hour < 100 ∧
  f.minute < 100 ∧ f.second < 100 ∧ f.year < 10000

/-- A well-formed date in the claims' sense: renderable and a valid calendar
timestamp. -/
def wellFormedDate (f : DateFields) : Prop :=
  renderable f ∧ validDateTime f = true

/-! ## SHA-1 (RFC 3174), the model of the engine digest behind `thumbprint` -/

/-- Truncation to a 32-bit word. -/
def w32 (n : Nat) : Nat := n % 4294967296

/-- Left rotation of a 32-bit word by `k` (0 < k < 32). -/
def rotl (k x : Nat) : Nat := w32 (x * 2 ^ k) + x / 2 ^ (32 - k)

/-- The running SHA-1 hash state. -/
structure Sha1State where
  h0 : Nat
  h1 : Nat
  h2 : Nat
  h3 : Nat
  h4 : Nat
deriving DecidableEq, Repr

/-- The RFC 3174 initial hash state. -/
def sha1Init : Sha1State :=
  ⟨0x67452301, 0xEFCDAB89, 0x98BADCFE, 0x10325476, 0xC3D2E1F0⟩

/-- Merkle–Damgard padding: append 0x80, zeros, and the 64-bit big-endian
message bit length, to a multiple of 64 bytes. -/
def sha1Pad (msg : List Nat) : List Nat :=
  let len := msg.length
  let z := (64 - (len + 9) % 64) % 64
  let bits := len * 8
  msg ++ 128 :: List.replicate z 0 ++
    [w32 (bits / 2 ^ 32) / 16777216 % 256, bits / 2 ^ 32 / 65536 % 256,
     bits / 2 ^ 32 / 256 % 256, bits / 2 ^ 32 % 256,
     bits / 16777216 % 256, bits / 65536 % 256, bits / 256 % 256, bits % 256]

/-- Split a byte list into 64-byte chunks. -/
def chunks64 : List Nat → List (List Nat)
  | [] => []
  | c :: rest => ((c :: rest).take 64) :: chunks64 ((c :: rest).drop 64)
termination_by l => l.length
decreasing_by simp [List.length_drop]; omega

/-- Group bytes four at a time into big-endian 32-bit words. -/
def toWords : List Nat → List Nat
  | b0 :: b1 :: b2 :: b3 :: rest =>
    (((b0 * 256 + b1) * 256 + b2) * 256 + b3) :: toWords rest
  | _ => []

/-- Extend the schedule by `n` words; `ws` holds the words already produced,
most recent first. -/
def extendWords : Nat → List Nat → List Nat
  | 0, ws => ws
  | n + 1, ws =>
    let w := rotl 1 (Nat.xor (Nat.xor (ws.getD 2 0) (ws.getD 7 0))
                            (Nat.xor (ws.getD 13 0) (ws.getD 15 0)))
    extendWords n (w :: ws)

/-- The 80-word message schedule of one chunk. -/
def sha1Schedule (chunk : List Nat) : List Nat :=
  (extendWords 64 (toWords chunk).reverse).reverse

/-- One compression round: round index `i`, schedule word `w`. -/
def sha1Round (i w : Nat) (st : Nat × Nat × Nat × Nat × Nat) :
    Nat × Nat × Nat × Nat × Nat :=
  let (a, b, c, d, e) := st
  let f :=
    if i < 20 then Nat.lor (Nat.land b c) (Nat.land (Nat.xor b 4294967295) d)
    else if i < 40 then Nat.xor (Nat.xor b c) d
    else if i < 60 then
      Nat.lor (Nat.lor (Nat.land b c) (Nat.land b d)) (Nat.land c d)
    else Nat.xor (Nat.xor b c) d
  let k :=
    if i < 20 then 0x5A827999
    else if i < 40 then 0x6ED9EBA1
    else if i < 60 then 0x8F1BBCDC
    else 0xCA62C1D6
  (w32 (rotl 5 a + f + e + k + w), a, rotl 30 b, c, d)

/-- Run the 80 rounds over the schedule words, starting at round index `i`. -/
def sha1Rounds (i : Nat) : List Nat → (Nat × Nat × Nat × Nat × Nat) →
    Nat × Nat × Nat × Nat × Nat
  | [], st => st
  | word :: ws, st => sha1Rounds (i + 1) ws (sha1Round i word st)

/-- Compress one 64-byte chunk into the hash state. -/
def sha1Chunk (st : Sha1State) (chunk : List Nat) : Sha1State :=
  let (a, b, c, d, e) :=
    sha1Rounds 0 (sha1Schedule chunk) (st.h0, st.h1, st.h2, st.h3, st.h4)
  ⟨w32 (st.h0 + a), w32 (st.h1 + b), w32 (st.h2 + c), w32 (st.h3 + d),
   w32 (st.h4 + e)⟩

/-- Big-endian bytes of one 32-bit word. -/
def wordBytes (w : Nat) : List Nat :=
  [w / 16777216 % 256, w / 65536 % 256, w / 256 % 256, w % 256]

/-- SHA-1 of a byte list (RFC 3174): the model of the engine call
`hash(MessageDigest::sha1(), data)`. -/
def sha1 (msg : List Nat) : List Nat :=
  let st := (chunks64 (sha1Pad msg)).foldl sha1Chunk sha1Init
  wordBytes st.h0 ++ wordBytes st.h1 ++ wordBytes st.h2 ++ wordBytes st.h3 ++
    wordBytes st.h4

/-! ## ByteString

Modelled from the spec: the repository's `ByteString` type lives in the
`types` module, which is not under src/; per the spec's external interface a
certificate buffer is an in-memory byte buffer that may be absent (null), and
`from_byte_string` rejects an absent buffer before asking the engine to
decode. -/

/-- A byte buffer whose contents may be absent (null). -/
structure ByteString where
  value : Option (List Nat)
deriving DecidableEq, Repr

/-- Whether the buffer is null (absent contents). -/
def ByteString.is_null (b : ByteString) : Bool := b.value.isNone

/-- Wrap concrete bytes into a (non-null) buffer. -/
def ByteString.from_bytes (bs : List Nat) : ByteString := ⟨some bs⟩

/-- The contents of a buffer already known to be non-null (the source's
`value.as_ref().unwrap()` on that path). -/
def ByteString.bytes (b : ByteString) : List Nat := b.value.getD []

/-! ## The abstract OpenSSL certificate engine

The source wraps `openssl::x509::X509`, an external collaborator. The engine
is abstracted as a certificate type together with its DER decode and encode
operations; `from_der` fails on non-certificate bytes, `to_der` is the
re-encode whose engine-level failure the source unwraps. -/

/-- The external certificate engine: an opaque certificate type with DER
decode and encode. -/
structure X509Engine where
  Cert : Type
  from_der : List Nat → Option Cert
  to_der : Cert → Option (List Nat)

/-- The certificate handle: a wrapper owning one engine certificate. -/
structure X509 (E : X509Engine) where
  value : E.Cert

/-- `X509::wrap`. -/
def X509.wrap (E : X509Engine) (c : E.Cert) : X509 E := ⟨c⟩

/-- `X509::from_byte_string`: reject a null buffer, otherwise hand the bytes
to the engine's DER decode; decode failure is `Err(())`, success wraps the
parsed certificate. -/
def X509.from_byte_string (E : X509Engine) (data : ByteString) :
    Except Unit (X509 E) :=
  if data.is_null then .error ()
  else
    match E.from_der data.bytes with
    | some cert => .ok (X509.wrap E cert)
    | none => .error ()

/-- `X509::as_byte_string`: re-encode the wrapped certificate to DER and wrap
the bytes in a ByteString; `none` is the unwrap panic on an engine encode
failure. -/
def X509.as_byte_string (E : X509Engine) (h : X509 E) : Option ByteString :=
  (E.to_der h.value).map ByteString.from_bytes

/-- `X509::thumbprint`: the SHA-1 digest of the DER form; `none` is the unwrap
panic on an engine encode failure. -/
def X509.thumbprint (E : X509Engine) (h : X509 E) : Option (List Nat) :=
  (E.to_der h.value).map sha1

/-- `X509::is_time_valid`, with the two validity-bound reads
(`self.not_before()`, `self.not_after()`) taken as arguments and instants
modeled as integers on the chronological timeline: an unreadable not-before
is `BAD_CERTIFICATE_INVALID` at once; a `now` before not-before is
`BAD_CERTIFICATE_TIME_INVALID` at once; only then is not-after consulted,
with an unreadable value `BAD_CERTIFICATE_INVALID` and a `now` after it
`BAD_CERTIFICATE_TIME_INVALID`; otherwise `GOOD`. -/
def is_time_valid (not_before not_after : Except Unit Int) (now : Int) :
    StatusCode :=
  match not_before with
  | .error _ => .BAD_CERTIFICATE_INVALID
  | .ok nb =>
    if now < nb then .BAD_CERTIFICATE_TIME_INVALID
    else
      match not_after with
      | .error _ => .BAD_CERTIFICATE_INVALID
      | .ok na =>
        if na < now then .BAD_CERTIFICATE_TIME_INVALID else .GOOD

/-- The constant rendering of `impl Debug for X509`. -/
def X509.debug_fmt (E : X509Engine) (_h : X509 E) : String := "[x509]"

/-! ## The key-pair handle and the abstract signing engine

The source wraps `openssl::pkey::PKey` and drives the external
`sign::Verifier` through three fallible engine calls (`Verifier::new`,
`update`, `finish`), unwrapping each `Result`. The engine is abstracted as
those three calls over an opaque verifier state; each may fail, as its Rust
type says. -/

/-- The digest algorithm selected for a verifier. -/
inductive MessageDigest where
  | sha1
  | sha256
deriving DecidableEq, Repr

/-- The external signing engine over key material of type `π`: the three
fallible verifier calls the source makes. -/
structure SignEngine (π : Type) where
  V : Type
  newVerifier : MessageDigest → π → Except Unit V
  update : V → List Nat → Except Unit V
  finish : V → List Nat → Except Unit Bool

/-- The key-pair handle: a wrapper owning one engine key. -/
structure PKey (π : Type) where
  value : π

/-- The shared body of `PKey::verify_sha1` / `verify_sha256`: create the
verifier, feed the data, finish against the signature, unwrapping each engine
result (`none` is the unwrap panic on an engine error). -/
def PKey.verify_digest {π : Type} (E : SignEngine π) (md : MessageDigest)
    (key : PKey π) (data signature : List Nat) : Option Bool :=
  match E.newVerifier md key.value with
  | .error _ => none
  | .ok v =>
    match E.update v data with
    | .error _ => none
    | .ok v' => (E.finish v' signature).toOption

/-- `PKey::verify_sha1`. -/
def PKey.verify_sha1 {π : Type} (E : SignEngine π) (key : PKey π)
    (data signature : List Nat) : Option Bool :=
  PKey.verify_digest E .sha1 key data signature

/-- `PKey::verify_sha256`. -/
def PKey.verify_sha256 {π : Type} (E : SignEngine π) (key : PKey π)
    (data signature : List Nat) : Option Bool :=
  PKey.verify_digest E .sha256 key data signature

/-- The constant rendering of `impl Debug for PKey`. -/
def PKey.debug_fmt {π : Type} (_k : PKey π) : String := "[pkey]"

/-! ## The symmetric key handle

The source wraps `openssl::aes::AesKey`, whose two constructors build an
encryption or a decryption key schedule from the same raw bytes
(`AES_set_encrypt_key` / `AES_set_decrypt_key`), failing on a key length the
cipher does not accept. Both repository constructors return the single
wrapper type `AesKey`, unwrapping the engine result. -/

/-- The cryptographic direction a key schedule was expanded for. -/
inductive AesRole where
  | encrypt
  | decrypt
deriving DecidableEq, Repr

/-- The engine's AES key: a key schedule expanded from raw bytes for one
direction. -/
structure EngineAesKey where
  role : AesRole
  key : List Nat
deriving DecidableEq, Repr

/-- The engine's `AesKey::new_encrypt`: accepts 128/192/256-bit keys. -/
def engineAesNewEncrypt (k : List Nat) : Except Unit EngineAesKey :=
  if k.length = 16 ∨ k.length = 24 ∨ k.length = 32 then .ok ⟨.encrypt, k⟩
  else .error ()

/-- The engine's `AesKey::new_decrypt`: accepts 128/192/256-bit keys. -/
def engineAesNewDecrypt (k : List Nat) : Except Unit EngineAesKey :=
  if k.length = 16 ∨ k.length = 24 ∨ k.length = 32 then .ok ⟨.decrypt, k⟩
  else .error ()

/-- The symmetric key handle: a wrapper owning one engine AES key. -/
structure AesKey where
  value : EngineAesKey
deriving DecidableEq, Repr

/-- `AesKey::new_encrypt`: wrap the engine's encryption key schedule,
unwrapping the engine result (`none` is the unwrap panic on a bad length). -/
def AesKey.new_encrypt (k : List Nat) : Option AesKey :=
  match engineAesNewEncrypt k with
  | .ok v => some ⟨v⟩
  | .error _ => none

/-- `AesKey::new_decrypt`: wrap the engine's decryption key schedule,
unwrapping the engine result (`none` is the unwrap panic on a bad length). -/
def AesKey.new_decrypt (k : List Nat) : Option AesKey :=
  match engineAesNewDecrypt k with
  | .ok v => some ⟨v⟩
  | .error _ => none

/-- The constant rendering of `impl Debug for AesKey`. -/
def AesKey.debug_fmt (_k : AesKey) : String := "[aes]"

/-! ## Concrete engine instances and inputs used by witnesses -/

/-- Whether a character list starts with something other than a digit
(in particular the empty remainder), the shape at which the engine's bounded
number scan stops. -/
def headNotDigit : List Char → Prop
  | [] => True
  | c :: _ => c.isDigit = false

/-- A concrete signing engine whose finish call reports an engine-level
verification error, as its Rust result type allows. -/
def badVerifyEngine : SignEngine Unit where
  V := Unit
  newVerifier := fun _ _ => .ok ()
  update := fun v _ => .ok v
  finish := fun _ _ => .error ()

/-- A concrete signing engine whose calls all succeed and whose verdict is a
mismatch (`false`). -/
def okVerifyEngine : SignEngine Unit where
  V := Unit
  newVerifier := fun _ _ => .ok ()
  update := fun v _ => .ok v
  finish := fun _ _ => .ok false

/-- A 128-bit all-zero symmetric key. -/
def key16 : List Nat := List.replicate 16 0

/-- A concrete certificate engine rejecting the empty buffer and otherwise
remembering the bytes. -/
def listCertEngine : X509Engine where
  Cert := List Nat
  from_der := fun bs => if bs.isEmpty then none else some bs
  to_der := fun c => some c

/-- A concrete certificate engine whose decode and encode are mutual
inverses on the nose. -/
def idCertEngine : X509Engine where
  Cert := List Nat
  from_der := some
  to_der := some

/-! # Theorems -/

/-- The SHA-1 digest of any message is exactly 20 bytes. -/
lemma sha1_length (msg : List Nat) : (sha1 msg).length = 20 := by
  simp [sha1, wordBytes]

/-- C1: `is_time_valid` returns GOOD exactly when both bounds read
successfully and not-before ≤ now ≤ not-after (equality at either bound is
valid); with both bounds readable it returns TIME_INVALID exactly when now is
strictly outside the interval; an unreadable not-before, or an unreadable
not-after reached with now not before not-before, gives CERTIFICATE_INVALID;
and when the not-before read fails, or now precedes not-before, the result
does not depend on the not-after bound at all (it is never read). -/
theorem C1_is_time_valid (nb na : Except Unit Int) (now : Int) :
    (is_time_valid nb na now = .GOOD ↔
      ∃ b a, nb = .ok b ∧ na = .ok a ∧ b ≤ now ∧ now ≤ a) ∧
    (∀ b a, nb = .ok b → na = .ok a →
      (is_time_valid nb na now = .BAD_CERTIFICATE_TIME_INVALID ↔
        now < b ∨ a < now)) ∧
    (nb = .error () → is_time_valid nb na now = .BAD_CERTIFICATE_INVALID) ∧
    (∀ b, nb = .ok b → ¬ now < b → na = .error () →
      is_time_valid nb na now = .BAD_CERTIFICATE_INVALID) ∧
    (nb = .error () → ∀ na', is_time_valid nb na' now = is_time_valid nb na now) ∧
    (∀ b, nb = .ok b → now < b → ∀ na',
      is_time_valid nb na' now = is_time_valid nb na now) := by
  refine ⟨?_, ?_, ?_, ?_, ?_, ?_⟩
  · rcases nb with u | b
    · simp [is_time_valid]
    · rcases na with v | a
      · by_cases hlt : now < b
        · simp [is_time_valid, hlt]
        · simp [is_time_valid, hlt]
      · by_cases hlt : now < b
        · simp only [is_time_valid, if_pos hlt]
          simp
          omega
        · by_cases hgt : a < now
          · simp only [is_time_valid, if_neg hlt, hgt, if_true]
            simp
            omega
          · simp only [is_time_valid, if_neg hlt, hgt, if_false]
            simp
            omega
  · rintro b a rfl rfl
    by_cases hlt : now < b
    · simp only [is_time_valid, if_pos hlt]
      simp
      omega
    · by_cases hgt : a < now
      · simp only [is_time_valid, if_neg hlt, hgt, if_true]
        simp
      · simp only [is_time_valid, if_neg hlt, hgt, if_false]
        simp
        omega
  · rintro rfl
    rfl
  · rintro b rfl hnl rfl
    simp [is_time_valid, hnl]
  · rintro rfl na'
    rfl
  · rintro b rfl hlt na'
    simp [is_time_valid, hlt]

/-- Witness for C1 at concrete bounds and instants: a now equal to not-before
is GOOD, a now past not-after is TIME_INVALID, an unreadable not-before is
CERTIFICATE_INVALID. -/
theorem C1_witness :
    is_time_valid (Except.ok (5 : Int)) (Except.ok 10) 5 = StatusCode.GOOD ∧
    is_time_valid (Except.ok (5 : Int)) (Except.ok 10) 11 =
      StatusCode.BAD_CERTIFICATE_TIME_INVALID ∧
    is_time_valid (Except.error ()) (Except.ok (10 : Int)) 7 =
      StatusCode.BAD_CERTIFICATE_INVALID :=
  ⟨(C1_is_time_valid (Except.ok 5) (Except.ok 10) 5).1.mpr
      ⟨5, 10, rfl, rfl, by decide, by decide⟩,
   ((C1_is_time_valid (Except.ok 5) (Except.ok 10) 11).2.1 5 10 rfl rfl).mpr
      (Or.inr (by decide)),
   (C1_is_time_valid (Except.error ()) (Except.ok 10) 7).2.2.1 rfl⟩

/-- C2 counterexample: against an engine whose finish call reports an
engine-level verification error (as the engine's Rust result type allows and
the claim itself contemplates), `verify_sha1` and `verify_sha256` do not
answer `false` — the unwrap of the engine result aborts (modeled as `none`)
instead of collapsing the failure to a boolean. -/
theorem C2_counterexample :
    PKey.verify_sha1 badVerifyEngine ⟨()⟩ [1] [2] = none ∧
    PKey.verify_sha1 badVerifyEngine ⟨()⟩ [1] [2] ≠ some false ∧
    PKey.verify_sha256 badVerifyEngine ⟨()⟩ [1] [2] = none ∧
    PKey.verify_sha256 badVerifyEngine ⟨()⟩ [1] [2] ≠ some false := by
  refine ⟨rfl, ?_, rfl, ?_⟩ <;> intro h <;> exact Option.noConfusion h

/-- C2 amended: `verify_sha1` and `verify_sha256` return the engine's boolean
verdict when the verifier construction, update and finish calls all succeed
(so a mismatch the engine reports as Ok(false) yields false), but when any of
the three engine calls fails the functions abort (the unwrap panics, modeled
as `none`) instead of returning false. -/
theorem C2_amended_verify {π : Type} (E : SignEngine π) (key : PKey π)
    (data signature : List Nat) (v1 v2 : E.V)
    (hnew1 : E.newVerifier .sha1 key.value = .ok v1)
    (hnew256 : E.newVerifier .sha256 key.value = .ok v1)
    (hupd : E.update v1 data = .ok v2) :
    (∀ b, E.finish v2 signature = .ok b →
      PKey.verify_sha1 E key data signature = some b ∧
      PKey.verify_sha256 E key data signature = some b) ∧
    (E.finish v2 signature = .error () →
      PKey.verify_sha1 E key data signature = none ∧
      PKey.verify_sha256 E key data signature = none) := by
  constructor
  · intro b hfin
    constructor <;>
      simp [PKey.verify_sha1, PKey.verify_sha256, PKey.verify_digest,
        hnew1, hnew256, hupd, hfin, Except.toOption]
  · intro hfin
    constructor <;>
      simp [PKey.verify_sha1, PKey.verify_sha256, PKey.verify_digest,
        hnew1, hnew256, hupd, hfin, Except.toOption]

/-- Witness for the amended C2: a mismatch verdict from a successfully driven
engine is returned as `some false` by both functions. -/
theorem C2_witness :
    PKey.verify_sha1 okVerifyEngine ⟨()⟩ [1] [2] = some false ∧
    PKey.verify_sha256 okVerifyEngine ⟨()⟩ [1] [2] = some false :=
  (C2_amended_verify okVerifyEngine ⟨()⟩ [1] [2] () () rfl rfl rfl).1 false rfl

/-- C4 counterexample: the claim asserts the two constructors yield distinct,
non-interoperable handle types, with misuse rejected by typing rather than a
runtime flag. In the source both constructors return the single type
`AesKey`; accordingly, in the embedding the homogeneous comparisons below are
well-typed at one and the same type (so nothing rejects an
encryption-constructed handle where a decryption-configured key is expected),
and what distinguishes the two results from the same 16 raw key bytes is a
runtime datum of the wrapped engine key — its role/schedule — not a type. -/
theorem C4_counterexample :
    AesKey.new_encrypt key16 ≠ AesKey.new_decrypt key16 ∧
    (AesKey.new_encrypt key16).map (fun k => k.value.key) =
      (AesKey.new_decrypt key16).map (fun k => k.value.key) ∧
    (AesKey.new_encrypt key16).map (fun k => k.value.role) =
      some AesRole.encrypt ∧
    (AesKey.new_decrypt key16).map (fun k => k.value.role) =
      some AesRole.decrypt := by
  refine ⟨by decide, by decide, by decide, by decide⟩

/-- C4 amended: for any accepted key length, `new_encrypt` and `new_decrypt`
are distinct entry points returning values of the same handle type `AesKey`
that wrap the same raw bytes but differ in the engine key's direction — a
value-level role distinction, not a type-level one, so an encryption handle
is not rejected by construction or typing where a decryption-configured key
is expected. -/
theorem C4_amended (k : List Nat)
    (hk : k.length = 16 ∨ k.length = 24 ∨ k.length = 32) :
    ∃ e d : AesKey,
      AesKey.new_encrypt k = some e ∧ AesKey.new_decrypt k = some d ∧
      e.value.role = AesRole.encrypt ∧ d.value.role = AesRole.decrypt ∧
      e.value.key = d.value.key ∧ e ≠ d := by
  refine ⟨⟨⟨.encrypt, k⟩⟩, ⟨⟨.decrypt, k⟩⟩, ?_, ?_, rfl, rfl, rfl, ?_⟩
  · simp [AesKey.new_encrypt, engineAesNewEncrypt, hk]
  · simp [AesKey.new_decrypt, engineAesNewDecrypt, hk]
  · intro h
    simp at h

/-- Witness for the amended C4 at the 128-bit all-zero key. -/
theorem C4_witness :
    ∃ e d : AesKey,
      AesKey.new_encrypt key16 = some e ∧ AesKey.new_decrypt key16 = some d ∧
      e.value.role = AesRole.encrypt ∧ d.value.role = AesRole.decrypt ∧
      e.value.key = d.value.key ∧ e ≠ d :=
  C4_amended key16 (Or.inl (by decide))

/-- C5: construction from bytes either yields a handle wrapping exactly the
certificate the engine parsed from the buffer's bytes, or fails with no
object: it fails on an absent (null) buffer, on an empty buffer (the engine
decodes no certificate from empty DER input), and whenever the engine cannot
decode the bytes; and every outcome is one of these two. -/
theorem C5_from_byte_string (E : X509Engine) (hempty : E.from_der [] = none)
    (data : ByteString) :
    (∀ h, X509.from_byte_string E data = .ok h →
      ∃ bs, data.value = some bs ∧ E.from_der bs = some h.value) ∧
    (data.value = none → X509.from_byte_string E data = .error ()) ∧
    (data.value = some [] → X509.from_byte_string E data = .error ()) ∧
    (∀ bs, data.value = some bs → E.from_der bs = none →
      X509.from_byte_string E data = .error ()) ∧
    (X509.from_byte_string E data = .error () ∨
      ∃ h, X509.from_byte_string E data = .ok h) := by
  refine ⟨?_, ?_, ?_, ?_, ?_⟩
  · intro h hok
    rcases data with ⟨_ | bs⟩
    · simp [X509.from_byte_string, ByteString.is_null] at hok
    · refine ⟨bs, rfl, ?_⟩
      simp only [X509.from_byte_string, ByteString.is_null, Option.isNone_some,
        Bool.false_eq_true, if_false, ByteString.bytes, Option.getD_some] at hok
      rcases hcase : E.from_der bs with _ | c <;> rw [hcase] at hok
      · exact Except.noConfusion hok
      · cases hok
        rfl
  · intro hnull
    rcases data with ⟨_⟩
    cases hnull
    rfl
  · intro hsome
    rcases data with ⟨_⟩
    cases hsome
    simp [X509.from_byte_string, ByteString.is_null, ByteString.bytes, hempty]
  · intro bs hsome hfail
    rcases data with ⟨_⟩
    cases hsome
    simp [X509.from_byte_string, ByteString.is_null, ByteString.bytes, hfail]
  · rcases hcase : X509.from_byte_string E data with _ | h
    · exact Or.inl rfl
    · exact Or.inr ⟨h, rfl⟩

/-- Witness for C5: against a concrete engine rejecting empty DER input, the
null buffer and the empty buffer are both rejected, and a decodable buffer
yields a handle wrapping exactly the parsed certificate. -/
theorem C5_witness :
    X509.from_byte_string listCertEngine ⟨none⟩ = .error () ∧
    X509.from_byte_string listCertEngine ⟨some []⟩ = .error () ∧
    ∃ bs, (ByteString.mk (some [48, 1, 2])).value = some bs ∧
      listCertEngine.from_der bs =
        some (X509.wrap listCertEngine [48, 1, 2]).value :=
  ⟨(C5_from_byte_string listCertEngine rfl ⟨none⟩).2.1 rfl,
   (C5_from_byte_string listCertEngine rfl ⟨some []⟩).2.2.1 rfl,
   (C5_from_byte_string listCertEngine rfl ⟨some [48, 1, 2]⟩).1
      (X509.wrap listCertEngine [48, 1, 2]) rfl⟩

/-- C6: for a handle whose certificate the engine can re-encode, and an
engine whose decode inverts its encode up to re-encoding (the correctness the
source assumes of its DER engine), `as_byte_string` succeeds, feeding its
output back through `from_byte_string` succeeds, and the reconstructed
handle re-encodes to the identical bytes. -/
theorem C6_round_trip (E : X509Engine)
    (hsucc : ∀ c : E.Cert, ∃ der, E.to_der c = some der)
    (hre : ∀ (c : E.Cert) (der : List Nat), E.to_der c = some der →
      ∃ c', E.from_der der = some c' ∧ E.to_der c' = some der)
    (h : X509 E) :
    ∃ (bs : ByteString) (h' : X509 E),
      X509.as_byte_string E h = some bs ∧
      X509.from_byte_string E bs = .ok h' ∧
      X509.as_byte_string E h' = X509.as_byte_string E h := by
  obtain ⟨der, hder⟩ := hsucc h.value
  obtain ⟨c', hc', hto'⟩ := hre h.value der hder
  refine ⟨ByteString.from_bytes der, ⟨c'⟩, ?_, ?_, ?_⟩
  · simp [X509.as_byte_string, hder, ByteString.from_bytes]
  · simp [X509.from_byte_string, ByteString.is_null, ByteString.from_bytes,
      ByteString.bytes, hc', X509.wrap]
  · simp [X509.as_byte_string, hder, hto']

/-- Witness for C6 against a concrete engine whose decode and encode are
mutual inverses, at a concrete three-byte certificate. -/
theorem C6_witness :
    ∃ (bs : ByteString) (h' : X509 idCertEngine),
      X509.as_byte_string idCertEngine ⟨[1, 2, 3]⟩ = some bs ∧
      X509.from_byte_string idCertEngine bs = .ok h' ∧
      X509.as_byte_string idCertEngine h' =
        X509.as_byte_string idCertEngine ⟨[1, 2, 3]⟩ :=
  C6_round_trip idCertEngine (fun c => ⟨c, rfl⟩)
    (fun _ der _ => ⟨der, rfl, rfl⟩) ⟨[1, 2, 3]⟩

/-- C7: for a handle whose certificate the engine re-encodes to `der`,
`thumbprint` is exactly the SHA-1 digest of `der`, that digest is 20 bytes,
and thumbprints are deterministic: handles reconstructed from equal buffer
contents have identical thumbprints. -/
theorem C7_thumbprint (E : X509Engine) (h : X509 E) (der : List Nat)
    (hder : E.to_der h.value = some der) :
    X509.thumbprint E h = some (sha1 der) ∧
    (sha1 der).length = 20 ∧
    (∀ (d1 d2 : ByteString) (h1 h2 : X509 E), d1.value = d2.value →
      X509.from_byte_string E d1 = .ok h1 →
      X509.from_byte_string E d2 = .ok h2 →
      X509.thumbprint E h1 = X509.thumbprint E h2) := by
  refine ⟨by simp [X509.thumbprint, hder], sha1_length der, ?_⟩
  intro d1 d2 h1 h2 hval h1ok h2ok
  rcases d1 with ⟨v1⟩
  rcases d2 with ⟨v2⟩
  cases hval
  rw [h1ok] at h2ok
  cases h2ok
  rfl

/-- Witness for C7 at a concrete handle: the thumbprint is the SHA-1 digest
of the DER bytes and is 20 bytes long. -/
theorem C7_witness :
    X509.thumbprint idCertEngine ⟨[1, 2, 3]⟩ = some (sha1 [1, 2, 3]) ∧
    (sha1 [1, 2, 3]).length = 20 :=
  ⟨(C7_thumbprint idCertEngine ⟨[1, 2, 3]⟩ [1, 2, 3] rfl).1,
   (C7_thumbprint idCertEngine ⟨[1, 2, 3]⟩ [1, 2, 3] rfl).2.1⟩

/-- C9: the diagnostic/debug rendering of each of the three handle types is a
fixed placeholder, identical across any two handles of the type whatever
their wrapped contents — no key material can reach the formatted output. -/
theorem C9_debug_redacted :
    (∀ (E : X509Engine) (a b : X509 E),
      X509.debug_fmt E a = "[x509]" ∧ X509.debug_fmt E a = X509.debug_fmt E b) ∧
    (∀ (π : Type) (a b : PKey π),
      PKey.debug_fmt a = "[pkey]" ∧ PKey.debug_fmt a = PKey.debug_fmt b) ∧
    (∀ a b : AesKey,
      AesKey.debug_fmt a = "[aes]" ∧ AesKey.debug_fmt a = AesKey.debug_fmt b) :=
  ⟨fun _ _ _ => ⟨rfl, rfl⟩, fun _ _ _ => ⟨rfl, rfl⟩, fun _ _ => ⟨rfl, rfl⟩⟩

/-! ## Parser helper lemmas -/

lemma digitChar_isDigit {d : Nat} (hd : d ≤ 9) : (digitChar d).isDigit = true := by
  interval_cases d <;> decide

lemma digitChar_toNat {d : Nat} (hd : d ≤ 9) : (digitChar d).toNat = 48 + d := by
  interval_cases d <;> decide

lemma scanNumber_renderNat2 (n : Nat) (hn : n < 100) (rest : List Char) :
    scanNumber 2 (renderNat2 n ++ rest) = some (n, rest) := by
  have h1 : n / 10 ≤ 9 := by omega
  have h2 : n % 10 ≤ 9 := by omega
  simp only [renderNat2, List.cons_append, List.nil_append, scanNumber,
    digitChar_isDigit h1, if_true, takeDigitsAux, digitChar_isDigit h2,
    digitChar_toNat h1, digitChar_toNat h2]
  have : (48 + n / 10 - 48) * 10 + (48 + n % 10 - 48) = n := by omega
  rw [this]

lemma scanNumber_renderNat4 (y : Nat) (hy : y < 10000) (rest : List Char)
    (hrest : headNotDigit rest) :
    scanNumber 6 (renderNat4 y ++ rest) = some (y, rest) := by
  have h1 : y / 1000 ≤ 9 := by omega
  have h2 : y / 100 % 10 ≤ 9 := by omega
  have h3 : y / 10 % 10 ≤ 9 := by omega
  have h4 : y % 10 ≤ 9 := by omega
  simp only [renderNat4, List.cons_append, List.nil_append, scanNumber,
    digitChar_isDigit h1, if_true, takeDigitsAux, digitChar_isDigit h2,
    digitChar_isDigit h3, digitChar_isDigit h4, digitChar_toNat h1,
    digitChar_toNat h2, digitChar_toNat h3, digitChar_toNat h4]
  cases rest with
  | nil =>
    simp only [takeDigitsAux]
    have : (((48 + y / 1000 - 48) * 10 + (48 + y / 100 % 10 - 48)) * 10 +
        (48 + y / 10 % 10 - 48)) * 10 + (48 + y % 10 - 48) = y := by omega
    rw [this]
  | cons c cs =>
    simp only [headNotDigit] at hrest
    simp only [takeDigitsAux, hrest, Bool.false_eq_true, if_false]
    have : (((48 + y / 1000 - 48) * 10 + (48 + y / 100 % 10 - 48)) * 10 +
        (48 + y / 10 % 10 - 48)) * 10 + (48 + y % 10 - 48) = y := by omega
    rw [this]

lemma parseMonthName_monthAbbrev (m : Nat) (h1 : 1 ≤ m) (h2 : m ≤ 12)
    (rest : List Char) :
    parseMonthName (monthAbbrev m ++ rest) = some (m, rest) := by
  interval_cases m <;> rfl

lemma expectChar_cons (c : Char) (rest : List Char) :
    expectChar c (c :: rest) = some rest := by
  simp [expectChar]

lemma parseFormat_render (f : DateFields) (hf : renderable f)
    (rest : List Char) (hrest : headNotDigit rest) :
    parseFormat (renderDate f ++ rest) = some (f, rest) := by
  obtain ⟨hm1, hm2, hd, hh, hmi, hs, hy⟩ := hf
  simp only [renderDate, List.append_assoc, List.cons_append]
  rw [parseFormat]
  rw [parseMonthName_monthAbbrev f.month hm1 hm2]
  simp only [Option.bind_eq_bind, Option.some_bind]
  rw [expectChar_cons]
  simp only [Option.some_bind]
  rw [scanNumber_renderNat2 f.day hd]
  simp only [Option.some_bind]
  rw [expectChar_cons]
  simp only [Option.some_bind]
  rw [scanNumber_renderNat2 f.hour hh]
  simp only [Option.some_bind]
  rw [expectChar_cons]
  simp only [Option.some_bind]
  rw [scanNumber_renderNat2 f.minute hmi]
  simp only [Option.some_bind]
  rw [expectChar_cons]
  simp only [Option.some_bind]
  rw [scanNumber_renderNat2 f.second hs]
  simp only [Option.some_bind]
  rw [expectChar_cons]
  simp only [Option.some_bind]
  rw [scanNumber_renderNat4 f.year hy rest hrest]
  simp only [Option.some_bind]
  rfl


lemma ends_with_gmt_append (xs : List Char) :
    ends_with_gmt (xs ++ gmtSuffix) = true := by
  have h4 : (xs ++ gmtSuffix).length = xs.length + 4 := by simp [gmtSuffix]
  simp only [ends_with_gmt, h4, decide_eq_true_eq]
  have h : xs.length + 4 - 4 = xs.length := by omega
  rw [h, List.drop_left]

lemma take_append_gmt (xs : List Char) :
    (xs ++ gmtSuffix).take ((xs ++ gmtSuffix).length - 4) = xs := by
  have h4 : (xs ++ gmtSuffix).length = xs.length + 4 := by simp [gmtSuffix]
  rw [h4]
  have h : xs.length + 4 - 4 = xs.length := by omega
  rw [h, List.take_left]

lemma ends_with_gmt_eq_true_iff (cs : List Char) :
    ends_with_gmt cs = true ↔ ∃ xs, cs = xs ++ gmtSuffix := by
  constructor
  · intro h
    simp only [ends_with_gmt, decide_eq_true_eq] at h
    refine ⟨cs.take (cs.length - 4), ?_⟩
    conv_lhs => rw [← List.take_append_drop (cs.length - 4) cs]
    rw [h]
  · rintro ⟨xs, rfl⟩
    exact ends_with_gmt_append xs

lemma renderDate_eq_concat (f : DateFields) :
    renderDate f = (monthAbbrev f.month ++ ' ' :: renderNat2 f.day ++ ' ' ::
      renderNat2 f.hour ++ ':' :: renderNat2 f.minute ++ ':' ::
      renderNat2 f.second ++ ' ' :: [digitChar (f.year / 1000),
      digitChar (f.year / 100 % 10), digitChar (f.year / 10 % 10)]) ++
      [digitChar (f.year % 10)] := by
  simp [renderDate, renderNat4, renderNat2, List.append_assoc]

lemma ends_with_gmt_renderDate (f : DateFields) :
    ends_with_gmt (renderDate f) = false := by
  by_contra hne
  have ht : ends_with_gmt (renderDate f) = true := by
    revert hne
    cases ends_with_gmt (renderDate f) <;> simp
  obtain ⟨xs, hxs⟩ := (ends_with_gmt_eq_true_iff _).mp ht
  have hlast : (renderDate f).getLast? = some 'T' := by
    rw [hxs]
    show (xs ++ ([' ', 'G', 'M'] ++ ['T'])).getLast? = some 'T'
    rw [← List.append_assoc]
    exact List.getLast?_concat _
  rw [renderDate_eq_concat f, List.getLast?_concat] at hlast
  have heq : digitChar (f.year % 10) = 'T' := Option.some.inj hlast
  have h9 : f.year % 10 ≤ 9 := by omega
  have : (48 + f.year % 10) = 84 := by
    rw [← digitChar_toNat h9, heq]
    rfl
  omega

lemma datetime_from_str_render (f : DateFields) (hf : renderable f) :
    datetime_from_str (renderDate f) =
      if validDateTime f then some f else none := by
  have h := parseFormat_render f hf []
  rw [List.append_nil] at h
  simp [datetime_from_str, h trivial]

lemma parse_asn1_date_renderDate (f : DateFields) (hf : renderable f) :
    X509.parse_asn1_date (renderDate f) =
      if validDateTime f then .ok f else .error () := by
  simp only [X509.parse_asn1_date, ends_with_gmt_renderDate f,
    Bool.false_eq_true, if_false, datetime_from_str_render f hf]
  by_cases hv : validDateTime f <;> simp [hv]

lemma parse_asn1_date_append_gmt (cs : List Char)
    (hno : ends_with_gmt cs = false) :
    X509.parse_asn1_date (cs ++ gmtSuffix) = X509.parse_asn1_date cs := by
  simp only [X509.parse_asn1_date, ends_with_gmt_append cs, hno, if_true,
    Bool.false_eq_true, if_false, take_append_gmt]

/-- C3: every well-formed `MMM DD HH:MM:SS YYYY` string, with or without the
` GMT` suffix, parses successfully to a timestamp whose
month/day/hour/minute/second/year equal the source fields exactly; the empty
string fails to parse; and a date text whose day value is out of range for
the stated month fails to parse. -/
theorem C3_parse_asn1_date :
    (∀ f : DateFields, wellFormedDate f →
      X509.parse_asn1_date (renderDate f) = .ok f ∧
      X509.parse_asn1_date (renderDate f ++ gmtSuffix) = .ok f) ∧
    X509.parse_asn1_date [] = .error () ∧
    (∀ f : DateFields, renderable f →
      ¬ (1 ≤ f.day ∧ f.day ≤ daysInMonth f.month f.year) →
      X509.parse_asn1_date (renderDate f) = .error ()) := by
  refine ⟨?_, rfl, ?_⟩
  · intro f hf
    have hpos : X509.parse_asn1_date (renderDate f) = .ok f := by
      rw [parse_asn1_date_renderDate f hf.1, if_pos hf.2]
    refine ⟨hpos, ?_⟩
    rw [parse_asn1_date_append_gmt _ (ends_with_gmt_renderDate f), hpos]
  · intro f hf hbad
    have hv : validDateTime f = false := by
      by_contra hne
      have ht : validDateTime f = true := by
        revert hne
        cases validDateTime f <;> simp
      simp only [validDateTime, Bool.and_eq_true, decide_eq_true_eq] at ht
      exact hbad ⟨ht.1.1.1.1.2, ht.1.1.1.2⟩
    rw [parse_asn1_date_renderDate f hf, hv]
    simp

/-- Witness for C3: `Feb 21 12:45:30 1999` parses to exactly those fields
with and without ` GMT`, the empty string fails, and `Jan 69 00:00:00 1970`
fails (January has no 69th day). -/
theorem C3_witness :
    X509.parse_asn1_date (renderDate ⟨1999, 2, 21, 12, 45, 30⟩) =
      .ok ⟨1999, 2, 21, 12, 45, 30⟩ ∧
    X509.parse_asn1_date (renderDate ⟨1999, 2, 21, 12, 45, 30⟩ ++ gmtSuffix) =
      .ok ⟨1999, 2, 21, 12, 45, 30⟩ ∧
    X509.parse_asn1_date [] = .error () ∧
    X509.parse_asn1_date (renderDate ⟨1970, 1, 69, 0, 0, 0⟩) = .error () :=
  ⟨(C3_parse_asn1_date.1 ⟨1999, 2, 21, 12, 45, 30⟩ (by unfold wellFormedDate renderable; decide)).1,
   (C3_parse_asn1_date.1 ⟨1999, 2, 21, 12, 45, 30⟩ (by unfold wellFormedDate renderable; decide)).2,
   C3_parse_asn1_date.2.1,
   C3_parse_asn1_date.2.2 ⟨1970, 1, 69, 0, 0, 0⟩ (by unfold renderable; decide) (by decide)⟩

/-- C8: appending the ` GMT` suffix to any date string that does not already
carry it — in particular to any well-formed bare date string — yields the
identical parse result: the zone token is stripped before parsing and never
honored as an offset. -/
theorem C8_gmt_suffix :
    (∀ cs : List Char, ends_with_gmt cs = false →
      X509.parse_asn1_date (cs ++ gmtSuffix) = X509.parse_asn1_date cs) ∧
    (∀ f : DateFields, wellFormedDate f →
      X509.parse_asn1_date (renderDate f ++ gmtSuffix) =
        X509.parse_asn1_date (renderDate f) ∧
      X509.parse_asn1_date (renderDate f) = .ok f) := by
  refine ⟨fun cs h => parse_asn1_date_append_gmt cs h, ?_⟩
  intro f hf
  have hpos : X509.parse_asn1_date (renderDate f) = .ok f := by
    rw [parse_asn1_date_renderDate f hf.1, if_pos hf.2]
  exact ⟨by rw [parse_asn1_date_append_gmt _ (ends_with_gmt_renderDate f), hpos], hpos⟩

/-- Witness for C8 at a non-date string and at a concrete valid date. -/
theorem C8_witness :
    X509.parse_asn1_date (['X'] ++ gmtSuffix) = X509.parse_asn1_date ['X'] ∧
    X509.parse_asn1_date (renderDate ⟨1970, 2, 21, 0, 0, 0⟩ ++ gmtSuffix) =
      X509.parse_asn1_date (renderDate ⟨1970, 2, 21, 0, 0, 0⟩) :=
  ⟨C8_gmt_suffix.1 ['X'] (by decide),
   (C8_gmt_suffix.2 ⟨1970, 2, 21, 0, 0, 0⟩ (by unfold wellFormedDate renderable; decide)).1⟩

/-- C10: the parser strips only the exact four-character suffix " GMT": for
a well-formed date followed by a space and any other three-character zone
token, the suffix is not removed (the ends-with test is false) and parsing
fails, even though the remainder of the string is a well-formed date. -/
theorem C10_zone_suffix (f : DateFields) (hf : wellFormedDate f)
    (z : List Char) (hz3 : z.length = 3) (hzg : z ≠ ['G', 'M', 'T']) :
    ends_with_gmt (renderDate f ++ ' ' :: z) = false ∧
    X509.parse_asn1_date (renderDate f ++ ' ' :: z) = .error () := by
  have hng : ends_with_gmt (renderDate f ++ ' ' :: z) = false := by
    by_contra hne
    have ht : ends_with_gmt (renderDate f ++ ' ' :: z) = true := by
      revert hne
      cases ends_with_gmt (renderDate f ++ ' ' :: z) <;> simp
    obtain ⟨xs, hxs⟩ := (ends_with_gmt_eq_true_iff _).mp ht
    have hzz := (List.append_inj' hxs (by simp [gmtSuffix, hz3])).2
    apply hzg
    simpa [gmtSuffix] using hzz
  refine ⟨hng, ?_⟩
  have hp := parseFormat_render f hf.1 (' ' :: z) (by simp [headNotDigit])
  simp only [X509.parse_asn1_date, hng, Bool.false_eq_true, if_false]
  simp [datetime_from_str, hp]

/-- Witness for C10: a valid date followed by " UTC" keeps its suffix and
fails to parse. -/
theorem C10_witness :
    ends_with_gmt (renderDate ⟨1999, 3, 31, 23, 59, 59⟩ ++
      ' ' :: ['U', 'T', 'C']) = false ∧
    X509.parse_asn1_date (renderDate ⟨1999, 3, 31, 23, 59, 59⟩ ++
      ' ' :: ['U', 'T', 'C']) = .error () :=
  C10_zone_suffix ⟨1999, 3, 31, 23, 59, 59⟩ (by unfold wellFormedDate renderable; decide)
    ['U', 'T', 'C'] (by decide) (by decide)


end Opcua
